import Mathlib

/-!
Shallow embedding of the vite-node-api request engine: the dev-server
middleware in src/index.js and the production runtime in
src/runtime/entry.mjs.  Paths are modelled as strings over the POSIX
separator, responses as an explicit record mirroring the fields of a Node
ServerResponse that the code reads or writes, and handlers as functions
from a response state to a new state plus an outcome (returned value or
thrown error).  Literal brace characters inside string literals are
written with their hexadecimal escapes.
-/

/-- The left brace character, used when building JSON text. -/
def lbrace : Char := Char.ofNat 123

/-- The right brace character, used when building JSON text. -/
def rbrace : Char := Char.ofNat 125

/- ## String helpers (kernel-computable stand-ins for the host string
primitives the engines use) -/

/-- Split a character list on a separator character. -/
def splitChars (sep : Char) : List Char → List (List Char)
  | [] => [[]]
  | c :: rest =>
    match splitChars sep rest with
    | [] => [[c]]
    | g :: gs => if c = sep then [] :: g :: gs else (c :: g) :: gs

/-- Does the first list start with the second? -/
def listStartsWith : List Char → List Char → Bool
  | _, [] => true
  | [], _ :: _ => false
  | c :: cs, d :: ds => c = d && listStartsWith cs ds

/-- JavaScript `s.startsWith(pat)` / Lean `String.startsWith`. -/
def strStartsWith (s pat : String) : Bool := listStartsWith s.data pat.data

/-- JavaScript `s.endsWith(pat)`. -/
def strEndsWith (s pat : String) : Bool :=
  listStartsWith s.data.reverse pat.data.reverse

/-- Drop the last `n` characters of a string. -/
def strDropRight (s : String) (n : Nat) : String :=
  String.mk (s.data.take (s.data.length - n))

/-- Substring search over character lists. -/
def incAux (pat : List Char) : List Char → Bool
  | [] => pat.isEmpty
  | c :: rest => listStartsWith (c :: rest) pat || incAux pat rest

/-- Substring containment, modelling JavaScript
`String.prototype.includes`. -/
def strIncludes (s pat : String) : Bool := incAux pat.data s.data

/-- Concatenation of a list of strings, as `String.join`. -/
def strJoin (l : List String) : String := l.foldl (fun a b => a ++ b) ""

/-- UTF-8 byte size of a chunk of body text (`c.length` on a Node
buffer). -/
def chunkBytes (s : String) : Nat :=
  s.data.foldl (fun n c => n + c.utf8Size) 0

/- ## Path model (Node path.resolve / path.normalize on POSIX) -/

/-- Split a path string on the separator, as Node does internally. -/
def splitSegs (s : String) : List String :=
  (splitChars '/' s.data).map String.mk

/-- One step of segment normalization: empty and dot segments vanish,
a dot-dot segment pops the last kept segment (at the root it is dropped),
anything else is kept. -/
def normStep (acc : List String) (seg : String) : List String :=
  if seg = "" ∨ seg = "." then acc
  else if seg = ".." then acc.dropLast
  else acc ++ [seg]

/-- Normalize a segment list of an absolute path. -/
def normSegs (segs : List String) : List String := segs.foldl normStep []

/-- Interleave the separator between segments. -/
def interSlash : List String → String
  | [] => ""
  | [s] => s
  | s :: t :: rest => s ++ "/" ++ interSlash (t :: rest)

/-- Rebuild an absolute path string from normalized segments. -/
def joinSegs (l : List String) : String := "/" ++ interSlash l

/-- Node `path.resolve(base, rel)` for an absolute `base`: concatenate and
normalize, yielding an absolute path. -/
def pathResolveAbs (base rel : String) : String :=
  joinSegs (normSegs (splitSegs base ++ splitSegs rel))

/-- Node `path.normalize` on an absolute path. -/
def pathNormalizeAbs (p : String) : String :=
  joinSegs (normSegs (splitSegs p))

/-- Modelled from the spec: the path-segment-aware containment check the
spec demands of the Path Guard — `p` is contained in `root` when it is the
root itself or extends it at a separator boundary, so a sibling such as
`/api-root-evil` is not contained in `/api-root`.  The source code instead
uses a bare `String.startsWith` test. -/
def specSegmentContained (root p : String) : Bool :=
  p == root || strStartsWith p (root ++ "/")

/- ## Route table model (entry.mjs getRouteCache) -/

/-- A piece of a compiled route pattern: a literal character of the
relative file path (a literal dot in a file name is the regex any-char),
or a bracketed parameter, compiled from `[name]` to the group `([^/]+)`. -/
inductive RPiece where
  | lit (c : Char)
  | param (name : String)
deriving Repr, DecidableEq

/-- Compile the characters of a (extension-stripped) relative handler
path into pattern pieces, mirroring
`rel.replace(/\[([^\]]+)\]/g, "([^/]+)")`.  The second argument is `none`
outside a bracket (every character is a literal piece) and carries the
reversed parameter name while inside one; an unterminated bracket yields
no further pieces (such a file name would make `new RegExp` fail in the
source). -/
def compGo : List Char → Option (List Char) → List RPiece
  | [], _ => []
  | c :: rest, none =>
    if c = '[' then compGo rest (some []) else .lit c :: compGo rest none
  | c :: rest, some acc =>
    if c = ']' then .param (String.mk acc.reverse) :: compGo rest none
    else compGo rest (some (c :: acc))

/-- Compile a relative handler path into pattern pieces. -/
def compilePat (cs : List Char) : List RPiece := compGo cs none

/-- The ordered parameter names of a compiled pattern, as extracted by
`rel.matchAll(/\[([^\]]+)\]/g)`. -/
def patNames (ps : List RPiece) : List String :=
  ps.filterMap (fun p => match p with | .param n => some n | .lit _ => none)

/-- Fuel-driven anchored match of compiled pieces against the characters
of the request path, returning the captured parameter values; mirrors
`apiPath.match(new RegExp("^" + pattern + "$"))` with greedy `([^/]+)`
groups.  The `Option (List Char)` state is `none` during ordinary
matching and carries the reversed characters consumed so far by an open
`([^/]+)` group, which greedily prefers consuming a further
non-separator character and otherwise closes and matches the rest.  The
fuel only bounds the recursion depth, which is below twice the combined
input length. -/
def captGo : Nat → Option (List Char) → List RPiece → List Char → Option (List String)
  | 0, _, _, _ => none
  | _ + 1, none, [], [] => some []
  | _ + 1, none, [], _ :: _ => none
  | _ + 1, none, .lit _ :: _, [] => none
  | f + 1, none, .lit c :: ps, d :: ds =>
    if c = '.' ∨ c = d then captGo f none ps ds else none
  | _ + 1, none, .param _ :: _, [] => none
  | f + 1, none, .param _ :: ps, d :: ds =>
    if d = '/' then none else captGo f (some [d]) ps ds
  | f + 1, some acc, ps, [] =>
    (captGo f none ps []).map (fun r => String.mk acc.reverse :: r)
  | f + 1, some acc, ps, d :: ds =>
    if d = '/' then
      (captGo f none ps (d :: ds)).map (fun r => String.mk acc.reverse :: r)
    else
      match captGo f (some (d :: acc)) ps ds with
      | some r => some r
      | none => (captGo f none ps (d :: ds)).map (fun r => String.mk acc.reverse :: r)

/-- Anchored match with captures of a compiled pattern against a path. -/
def piecesCapt (ps : List RPiece) (ds : List Char) : Option (List String) :=
  captGo (2 * (ps.length + ds.length) + 4) none ps ds

/-- A cached route entry: the absolute handler file and its compiled
pattern (entry.mjs getRouteCache). -/
structure Route where
  file : String
  pieces : List RPiece
deriving Repr, DecidableEq

/-- Strip the trailing `.js` extension, as `pattern.replace(/\.js$/, "")`. -/
def stripJs (rel : String) : String :=
  if strEndsWith rel ".js" then strDropRight rel 3 else rel

/-- Build one cached route from the API root and a relative file path. -/
def mkRoute (apiDir rel : String) : Route :=
  { file := apiDir ++ "/" ++ rel, pieces := compilePat (stripJs rel).data }

/-- The cached route table built from the recursive file listing of the
API root (entry.mjs getRouteCache over `fg("**/*.js")`). -/
def getRouteCache (apiDir : String) (rels : List String) : List Route :=
  rels.map (mkRoute apiDir)

/-- Scan the route table in order for the first entry whose pattern
matches the request path, with its captures. -/
def firstMatch : List Route → List Char → Option (Route × List String)
  | [], _ => none
  | rt :: rest, cs =>
    match piecesCapt rt.pieces cs with
    | some caps => some (rt, caps)
    | none => firstMatch rest cs

/- ## Route resolution outcomes -/

/-- Outcome of the routing phase of a request: a 403, a 404, or loading a
handler file with its bound route parameters. -/
inductive RouteOutcome where
  | forbidden
  | notFound
  | load (file : String) (params : List (String × String))
deriving Repr, DecidableEq

/-- The dev middleware routing (src/index.js lines 96-114): direct file
resolution only, then the startsWith guard and the existence check.
`fsFiles` is the set of files that exist on disk. -/
def devResolve (apiDir : String) (fsFiles : List String) (apiPath : String) :
    RouteOutcome :=
  let filePath := pathResolveAbs apiDir ("." ++ apiPath ++ ".js")
  let safePath := pathNormalizeAbs filePath
  if !(strStartsWith safePath apiDir) then .forbidden
  else if !(fsFiles.contains safePath) then .notFound
  else .load safePath []

/-- The production runtime routing (entry.mjs lines 101-129): a direct
file match first, otherwise the first matching cached route, then the
startsWith guard and the existence check.  `rels` are the relative paths
the route cache was built from. -/
def runtimeResolve (apiDir : String) (fsFiles : List String)
    (rels : List String) (apiPath : String) : RouteOutcome :=
  let direct := pathResolveAbs apiDir ("." ++ apiPath ++ ".js")
  let chosen :=
    if fsFiles.contains direct then (direct, ([] : List (String × String)))
    else
      match firstMatch (getRouteCache apiDir rels) apiPath.data with
      | some (rt, caps) => (rt.file, (patNames rt.pieces).zip caps)
      | none => (direct, [])
  let safePath := pathNormalizeAbs chosen.1
  if !(strStartsWith safePath apiDir) then .forbidden
  else if !(fsFiles.contains safePath) then .notFound
  else .load safePath chosen.2

/- ## JSON values returned by handlers, and their serialization -/

/-- A JSON value as a handler may return it; the absent (undefined) return
is modelled by `Option` at the use sites. -/
inductive JsVal where
  | jnull
  | jbool (b : Bool)
  | jnum (n : Int)
  | jstr (s : String)
  | jarr (xs : List JsVal)
  | jobj (fs : List (String × JsVal))
deriving Repr

/-- Minimal JSON string escaping (quote and backslash), as used by the
host serializer on the values appearing in this development. -/
def escapeJs (s : String) : String :=
  String.mk (s.data.foldr
    (fun c acc => if c = '"' ∨ c = '\\' then '\\' :: c :: acc else c :: acc) [])

mutual
/-- JSON serialization of a handler return value, modelling
`JSON.stringify` (and the generic fast-json-stringify instance, whose
output coincides on objects). -/
def stringifyJs : JsVal → String
  | .jnull => "null"
  | .jbool true => "true"
  | .jbool false => "false"
  | .jnum n => toString n
  | .jstr s => "\"" ++ escapeJs s ++ "\""
  | .jarr xs => "[" ++ stringifyArr xs ++ "]"
  | .jobj fs => "\x7b" ++ stringifyFlds fs ++ "\x7d"

/-- Comma-separated serialization of array elements. -/
def stringifyArr : List JsVal → String
  | [] => ""
  | [x] => stringifyJs x
  | x :: y :: xs => stringifyJs x ++ "," ++ stringifyArr (y :: xs)

/-- Comma-separated serialization of object fields. -/
def stringifyFlds : List (String × JsVal) → String
  | [] => ""
  | [(k, v)] => "\"" ++ escapeJs k ++ "\":" ++ stringifyJs v
  | (k, v) :: f :: fs =>
    "\"" ++ escapeJs k ++ "\":" ++ stringifyJs v ++ "," ++ stringifyFlds (f :: fs)
end

/-- The JavaScript `result ?? {}` applied to a handler return value: both
an absent (undefined) return and a null return coalesce to the empty
object. -/
def coalesce : Option JsVal → JsVal
  | none => .jobj []
  | some .jnull => .jobj []
  | some v => v

/-- The serialized error body `{"error": msg}` produced by the error
responses of both engines. -/
def errBody (msg : String) : String :=
  "\x7b\"error\":\"" ++ escapeJs msg ++ "\"\x7d"

/- ## Response state -/

/-- The slice of a Node ServerResponse that the engines read or write:
status code, the content type header, the ended flag, the body written by
`end`, and a count of write attempts made after the response had already
ended (each such attempt raises ERR_HTTP_HEADERS_SENT in Node and leaves
the sent response unchanged). -/
structure Res where
  statusCode : Nat := 200
  contentType : Option String := none
  writableEnded : Bool := false
  body : String := ""
  attemptsAfterEnd : Nat := 0
deriving Repr, DecidableEq

/-- A fresh response, as at entry of the request listener. -/
def Res.init : Res := {}

/-- The unguarded dev-middleware error write
(`res.statusCode = s; res.setHeader(...); res.end(body)`), reached only
with a not-yet-ended response. -/
def sendJsonDev (status : Nat) (b : String) (r : Res) : Res :=
  { r with statusCode := status, contentType := some "application/json",
           writableEnded := true, body := b }

/-- `res.writeHead(status, {"Content-Type": "application/json"})`: fails
(ERR_HTTP_HEADERS_SENT) without touching the sent response if the
response has already ended. -/
def Res.writeHeadJson (r : Res) (status : Nat) : Except Res Res :=
  if r.writableEnded then
    .error { r with attemptsAfterEnd := r.attemptsAfterEnd + 1 }
  else
    .ok { r with statusCode := status, contentType := some "application/json" }

/-- `res.end(body)` on a response whose headers were just written. -/
def Res.endBody (r : Res) (b : String) : Except Res Res :=
  if r.writableEnded then
    .error { r with attemptsAfterEnd := r.attemptsAfterEnd + 1 }
  else
    .ok { r with writableEnded := true, body := b }

/- ## Finalizers and timeout callbacks -/

/-- The dev-middleware finalizer (src/index.js lines 152-161): only if the
handler has not ended the response, set the JSON content type and end with
the serialized return value; the status code is left as it stands. -/
def devFinalize (v : Option JsVal) (r : Res) : Res :=
  if r.writableEnded then r
  else
    { r with contentType := some "application/json", writableEnded := true,
             body := stringifyJs (coalesce v) }

/-- The production-runtime finalizer (entry.mjs lines 144-147): only if
the handler has not ended the response, `writeHead(200, json)` and end
with the serialized return value — the 200 overrides any status code the
handler may have set. -/
def runtimeFinalize (v : Option JsVal) (r : Res) : Res :=
  if r.writableEnded then r
  else
    { r with statusCode := 200, contentType := some "application/json",
             writableEnded := true, body := stringifyJs (coalesce v) }

/-- The dev-middleware timeout callback (src/index.js lines 88-94),
applied to the response state as it is when the timer fires. -/
def devTimeoutFire (r : Res) : Res :=
  if !r.writableEnded then
    sendJsonDev 408 (errBody "Request timeout") r
  else r

/-- The production-runtime timeout callback (entry.mjs lines 91-96),
applied to the response state as it is when the timer fires. -/
def runtimeTimeoutFire (r : Res) : Res :=
  if !r.writableEnded then
    { r with statusCode := 408, contentType := some "application/json",
             writableEnded := true, body := errBody "Request timeout" }
  else r

/- ## Body decoding -/

/-- The mutating-method test `["POST","PUT","PATCH"].includes(req.method)`. -/
def isMutating (method : String) : Bool :=
  ["POST", "PUT", "PATCH"].contains method

/-- Byte size of a list of body chunks (`c.length` on Node buffers is the
byte count; chunks are modelled as their UTF-8 text). -/
def sumBytes : List String → Nat
  | [] => 0
  | c :: rest => chunkBytes c + sumBytes rest

/-- The incremental body read shared by both engines: accumulate chunks,
keeping a running byte count, and abort with `none` as soon as the count
exceeds the limit — the offending chunk is not buffered and the remaining
chunks are never visited. -/
def streamRead (limit total : Nat) : List String → Option (List String)
  | [] => some []
  | c :: rest =>
    let t := total + chunkBytes c
    if limit < t then none
    else (streamRead limit t rest).map (fun l => c :: l)

/-- `Buffer.concat(chunks).toString() || "{}"`: an empty body text is
replaced by the empty-object text. -/
def orEmptyObj (s : String) : String := if s = "" then "\x7b\x7d" else s

/- ## A model of the host JSON parser (verdict only)

The engines delegate syntax checking to the host parser (fast-json-parse
wrapping JSON.parse in the middleware, JSON.parse in the runtime).  The
pipelines below are parameterized over the parser verdict; the following
executable validator of the JSON grammar instantiates it in witnesses and
counterexamples.  Its error message is a fixed representative of the host
parser's `Unexpected token` messages, none of which contain "too large". -/

/-- JSON whitespace. -/
def isJsonWs (c : Char) : Bool :=
  c = ' ' ∨ c = '\t' ∨ c = '\n' ∨ c = '\r'

/-- Skip JSON whitespace. -/
def skipWs (cs : List Char) : List Char := cs.dropWhile isJsonWs

/-- Hexadecimal digit test for string escapes. -/
def isHexDigit (c : Char) : Bool :=
  c.isDigit ∨ ('a' ≤ c ∧ c ≤ 'f') ∨ ('A' ≤ c ∧ c ≤ 'F')

/-- Single-character string escapes. -/
def escOk (c : Char) : Bool :=
  c = '"' ∨ c = '\\' ∨ c = '/' ∨ c = 'b' ∨ c = 'f' ∨ c = 'n' ∨ c = 'r' ∨ c = 't'

/-- Consume the remainder of a JSON string after its opening quote. -/
def pStr (fuel : Nat) (cs : List Char) : Option (List Char) :=
  match fuel, cs with
  | 0, _ => none
  | _, [] => none
  | fuel + 1, c :: rest =>
    if c = '"' then some rest
    else if c = '\\' then
      match rest with
      | [] => none
      | e :: rest1 =>
        if escOk e then pStr fuel rest1
        else if e = 'u' ∧ (rest1.take 4).length = 4 ∧ (rest1.take 4).all isHexDigit then
          pStr fuel (rest1.drop 4)
        else none
    else if c.toNat < 32 then none else pStr fuel rest

/-- Consume a JSON number starting at a minus sign or digit. -/
def pNum (cs : List Char) : Option (List Char) :=
  let cs1 := match cs with | '-' :: rest => rest | _ => cs
  let digits := cs1.takeWhile Char.isDigit
  if digits.isEmpty then none
  else
    let cs2 := cs1.dropWhile Char.isDigit
    let cs3 :=
      match cs2 with
      | '.' :: rest =>
        if (rest.takeWhile Char.isDigit).isEmpty then none
        else some (rest.dropWhile Char.isDigit)
      | _ => some cs2
    match cs3 with
    | none => none
    | some cs4 =>
      match cs4 with
      | e :: rest =>
        if e = 'e' ∨ e = 'E' then
          let rest1 := match rest with
            | s :: rest2 => if s = '+' ∨ s = '-' then rest2 else rest
            | [] => rest
          if (rest1.takeWhile Char.isDigit).isEmpty then none
          else some (rest1.dropWhile Char.isDigit)
        else some cs4
      | [] => some cs4

mutual
/-- Consume one JSON value (after optional leading whitespace). -/
def pVal : Nat → List Char → Option (List Char)
  | 0, _ => none
  | fuel + 1, cs =>
    match skipWs cs with
    | [] => none
    | c :: rest =>
      if c = '"' then pStr fuel rest
      else if c = lbrace then pObj fuel rest
      else if c = '[' then pArr fuel rest
      else if c = 't' then
        if rest.take 3 = ['r', 'u', 'e'] then some (rest.drop 3) else none
      else if c = 'f' then
        if rest.take 4 = ['a', 'l', 's', 'e'] then some (rest.drop 4) else none
      else if c = 'n' then
        if rest.take 3 = ['u', 'l', 'l'] then some (rest.drop 3) else none
      else if c = '-' ∨ c.isDigit then pNum (c :: rest)
      else none

/-- Consume the inside of a JSON object after the opening brace. -/
def pObj : Nat → List Char → Option (List Char)
  | 0, _ => none
  | fuel + 1, cs =>
    match skipWs cs with
    | [] => none
    | c :: rest => if c = rbrace then some rest else pMembers fuel (c :: rest)

/-- Consume one or more `"key": value` members and the closing brace. -/
def pMembers : Nat → List Char → Option (List Char)
  | 0, _ => none
  | fuel + 1, cs =>
    match skipWs cs with
    | '"' :: rest =>
      match pStr fuel rest with
      | none => none
      | some r1 =>
        match skipWs r1 with
        | ':' :: r2 =>
          match pVal fuel r2 with
          | none => none
          | some r3 =>
            match skipWs r3 with
            | ',' :: r4 => pMembers fuel r4
            | c :: r4 => if c = rbrace then some r4 else none
            | [] => none
        | _ => none
    | _ => none

/-- Consume the inside of a JSON array after the opening bracket. -/
def pArr : Nat → List Char → Option (List Char)
  | 0, _ => none
  | fuel + 1, cs =>
    match skipWs cs with
    | ']' :: rest => some rest
    | _ => pElems fuel cs

/-- Consume one or more array elements and the closing bracket. -/
def pElems : Nat → List Char → Option (List Char)
  | 0, _ => none
  | fuel + 1, cs =>
    match pVal fuel cs with
    | none => none
    | some r1 =>
      match skipWs r1 with
      | ',' :: r2 => pElems fuel r2
      | ']' :: r2 => some r2
      | _ => none
end

/-- Verdict of the modelled host JSON parser: `none` when the text is
valid JSON, otherwise a representative parse-error message. -/
def jsParse (s : String) : Option String :=
  match pVal (2 * s.length + 16) s.data with
  | some rest => if (skipWs rest).isEmpty then none else some "Unexpected token in JSON"
  | none => some "Unexpected token in JSON"

/- ## Handler invocation and the two pipelines -/

/-- Outcome of invoking a handler: a returned value (`none` models an
undefined return) or a thrown/rejected error message. -/
inductive HOut where
  | ret (v : Option JsVal)
  | thrw (msg : String)

/-- Result of running a request pipeline: the final response state,
whether the handler was invoked, and whether an error escaped the
listener unhandled. -/
structure PipeResult where
  res : Res
  invoked : Bool
  escaped : Bool
deriving Repr, DecidableEq

/-- The outermost catch of the production runtime (entry.mjs lines
183-186): an unconditional `writeHead(500)`/`end`; if that write itself
fails because the response already ended, the error escapes the listener. -/
def runtimeOuterCatch (invoked : Bool) (msg : String) (r : Res) : PipeResult :=
  match r.writeHeadJson 500 with
  | .ok r1 =>
    match r1.endBody (errBody msg) with
    | .ok r2 => { res := r2, invoked := invoked, escaped := false }
    | .error r2 => { res := r2, invoked := invoked, escaped := true }
  | .error r1 => { res := r1, invoked := invoked, escaped := true }

/-- The Node error message raised by a write after the response ended. -/
def headersSentMsg : String :=
  "Cannot set headers after they are sent to the client"

/-- The inner catch of the production runtime API branch (entry.mjs lines
148-153): choose 413 when the message contains "too large", else 500, and
write unconditionally; a failed write falls through to the outer catch
with the headers-sent error. -/
def runtimeCatch (invoked : Bool) (msg : String) (r : Res) : PipeResult :=
  match r.writeHeadJson (if strIncludes msg "too large" then 413 else 500) with
  | .ok r1 =>
    match r1.endBody (errBody msg) with
    | .ok r2 => { res := r2, invoked := invoked, escaped := false }
    | .error r2 => runtimeOuterCatch invoked headersSentMsg r2
  | .error r1 => runtimeOuterCatch invoked headersSentMsg r1

/-- The production runtime pipeline from a resolved route onward
(entry.mjs lines 131-153): body decoding for mutating methods (parse
skipped when no chunks arrived), handler invocation, finalizer, and the
catch chain.  `jparse` is the host JSON parser verdict; `handler` maps the
response state to a new state and an outcome. -/
def runtimeHandle (method : String) (limit : Nat) (chunks : List String)
    (jparse : String → Option String) (handler : Res → Res × HOut)
    (r : Res) : PipeResult :=
  let invoke : Res → PipeResult := fun r0 =>
    let h := handler r0
    match h.2 with
    | .ret v => { res := runtimeFinalize v h.1, invoked := true, escaped := false }
    | .thrw msg => runtimeCatch true msg h.1
  if isMutating method then
    match streamRead limit 0 chunks with
    | none => runtimeCatch false "Request body too large" r
    | some parts =>
      if parts.isEmpty then invoke r
      else
        match jparse (orEmptyObj (strJoin parts)) with
        | some msg => runtimeCatch false msg r
        | none => invoke r
  else invoke r

/-- The dev middleware pipeline from a resolved route onward
(src/index.js lines 116-168): the 413 and 400 paths return before any
module is loaded; handler errors reach a catch that writes a 500 only if
the response has not already ended. -/
def devHandle (method : String) (limit : Nat) (chunks : List String)
    (jparse : String → Option String) (handler : Res → Res × HOut)
    (r : Res) : PipeResult :=
  let invoke : Res → PipeResult := fun r0 =>
    let h := handler r0
    match h.2 with
    | .ret v => { res := devFinalize v h.1, invoked := true, escaped := false }
    | .thrw msg =>
      { res := if h.1.writableEnded then h.1 else sendJsonDev 500 (errBody msg) h.1,
        invoked := true, escaped := false }
  if isMutating method then
    match streamRead limit 0 chunks with
    | none =>
      { res := sendJsonDev 413 (errBody "Request body too large") r,
        invoked := false, escaped := false }
    | some parts =>
      match jparse (orEmptyObj (strJoin parts)) with
      | some _ =>
        { res := sendJsonDev 400 (errBody "Invalid JSON body") r,
          invoked := false, escaped := false }
      | none => invoke r
  else invoke r

/- ## Helper lemmas -/

/-- If the running byte count exceeds the limit over a nonempty chunk
list, the incremental read aborts. -/
theorem streamRead_exceeds (limit : Nat) :
    ∀ (chunks : List String) (total : Nat), chunks ≠ [] →
      limit < total + sumBytes chunks → streamRead limit total chunks = none := by
  intro chunks
  induction chunks with
  | nil => intro total h _; exact absurd rfl h
  | cons c rest ih =>
    intro total _ hlt
    simp only [streamRead]
    by_cases hc : limit < total + chunkBytes c
    · simp [hc]
    · simp only [hc, if_false]
      cases rest with
      | nil =>
        exfalso
        simp only [sumBytes, Nat.add_zero] at hlt
        omega
      | cons d ds =>
        have hrest : streamRead limit (total + chunkBytes c) (d :: ds) = none := by
          apply ih _ (by simp)
          simp only [sumBytes] at hlt ⊢
          omega
        simp [hrest]

/-- Once the incremental read has aborted on a chunk list, it aborts on
any extension of that list: the remainder of the stream is never read. -/
theorem streamRead_append (limit : Nat) (rest : List String) :
    ∀ (chunks : List String) (total : Nat),
      streamRead limit total chunks = none →
      streamRead limit total (chunks ++ rest) = none := by
  intro chunks
  induction chunks with
  | nil => intro total h; simp [streamRead] at h
  | cons c cs ih =>
    intro total h
    simp only [streamRead, List.cons_append] at h ⊢
    by_cases hc : limit < total + chunkBytes c
    · simp [hc]
    · simp only [hc, if_false, Option.map_eq_none'] at h ⊢
      exact ih _ h

/- ## Claim theorems -/

/-- Claim C1: the source's containment guard is the bare string test
`safePath.startsWith(apiDir)`, which is not path-segment-aware: the
decoded request path `/../api-evil/x` (from the URL
`/api/..%2fapi-evil%2fx`) resolves to the sibling file
`/srv/app/api-evil/x.js`, which the guard accepts althought the
segment-aware containment of the spec rejects it, and both engines
proceed to load that handler instead of answering 403 or 404. -/
theorem c1_traversal_guard_eval :
    devResolve "/srv/app/api" ["/srv/app/api-evil/x.js"] "/../api-evil/x"
      = .load "/srv/app/api-evil/x.js" [] ∧
    runtimeResolve "/srv/app/api" ["/srv/app/api-evil/x.js"] [] "/../api-evil/x"
      = .load "/srv/app/api-evil/x.js" [] ∧
    specSegmentContained "/srv/app/api" "/srv/app/api-evil/x.js" = false ∧
    strStartsWith
      (pathNormalizeAbs
        (pathResolveAbs "/srv/app/api" ("." ++ "/../api-evil/x" ++ ".js")))
      "/srv/app/api" = true := by
  refine ⟨by decide, by decide, by decide, by decide⟩

/-- Claim C2: the runtime compiles `users/[id].js` to the anchored
pattern `users/([^/]+)` but matches it against the request-derived
`apiPath`, which always begins with a slash; the pattern would bind
`id = "123"` against `users/123`, yet against the actual `/users/123` it
never matches, so resolution falls through to 404 and no parameter is
ever bound. -/
theorem c2_dynamic_route_eval :
    runtimeResolve "/srv/app/api" ["/srv/app/api/users/[id].js"]
        ["users/[id].js"] "/users/123" = .notFound ∧
    piecesCapt (compilePat ("users/[id]".data)) ("users/123".data) = some ["123"] ∧
    piecesCapt (compilePat ("users/[id]".data)) ("/users/123".data) = none := by
  refine ⟨by decide, by decide, by decide⟩

/-- Claim C3 (counterexample): in the production runtime a POST whose
body is not valid JSON is answered with status 500 carrying the parser's
message, not with 400 and "Invalid JSON body" as claimed; the handler is
still never invoked. -/
theorem c3_invalid_json_cex :
    (runtimeHandle "POST" 1000000 ["nope"] jsParse
        (fun r => (r, .ret none)) Res.init).res.statusCode = 500 ∧
    ¬ (runtimeHandle "POST" 1000000 ["nope"] jsParse
        (fun r => (r, .ret none)) Res.init).res.statusCode = 400 ∧
    (runtimeHandle "POST" 1000000 ["nope"] jsParse
        (fun r => (r, .ret none)) Res.init).invoked = false := by
  refine ⟨by decide, by decide, by decide⟩

/-- Claim C3 (amended): for a mutating-method request whose body text the
host JSON parser rejects, the dev middleware responds 400 with a body
containing "Invalid JSON body" and never invokes the handler, while the
production runtime responds 500 with the parser's error message (through
its generic catch, since parse errors do not mention "too large") and
never invokes the handler. -/
theorem c3_invalid_json_amended (method : String) (limit : Nat)
    (chunks parts : List String) (jparse : String → Option String)
    (err : String) (handler : Res → Res × HOut) (r : Res)
    (hm : isMutating method = true)
    (hr : r.writableEnded = false)
    (hsr : streamRead limit 0 chunks = some parts)
    (hne : parts.isEmpty = false)
    (hp : jparse (orEmptyObj (strJoin parts)) = some err)
    (htl : strIncludes err "too large" = false) :
    (devHandle method limit chunks jparse handler r).res.statusCode = 400 ∧
    strIncludes (devHandle method limit chunks jparse handler r).res.body
      "Invalid JSON body" = true ∧
    (devHandle method limit chunks jparse handler r).invoked = false ∧
    (runtimeHandle method limit chunks jparse handler r).res.statusCode = 500 ∧
    (runtimeHandle method limit chunks jparse handler r).res.body = errBody err ∧
    (runtimeHandle method limit chunks jparse handler r).invoked = false := by
  have hib : strIncludes (errBody "Invalid JSON body") "Invalid JSON body" = true := by
    decide
  refine ⟨?_, ?_, ?_, ?_, ?_, ?_⟩ <;>
    simp [devHandle, runtimeHandle, runtimeCatch, runtimeOuterCatch,
          Res.writeHeadJson, Res.endBody, sendJsonDev, hm, hr, hsr, hne, hp, htl, hib]

/-- Claim C3 (witness): the amended statement at the concrete invalid
body "nope" with the modelled host parser. -/
theorem c3_invalid_json_witness :
    (devHandle "POST" 1000000 ["nope"] jsParse
        (fun r => (r, .ret none)) Res.init).res.statusCode = 400 ∧
    (runtimeHandle "POST" 1000000 ["nope"] jsParse
        (fun r => (r, .ret none)) Res.init).res.statusCode = 500 := by
  have h := c3_invalid_json_amended "POST" 1000000 ["nope"] ["nope"] jsParse
    "Unexpected token in JSON" (fun r => (r, .ret none)) Res.init
    (by decide) (by decide) (by decide) (by decide) (by decide) (by decide)
  exact ⟨h.1, h.2.2.2.1⟩

/-- Claim C4 (counterexample): a runtime handler that sets status 404 on
the response without ending it and returns a value is finalized by
`writeHead(200)`: the client sees 200, the handler's status code is not
preserved. -/
theorem c4_finalize_cex :
    (runtimeHandle "GET" 10 [] jsParse
        (fun r => ({ r with statusCode := 404 },
                   .ret (some (.jobj [("ok", .jbool true)])))) Res.init).res.statusCode
      = 200 ∧
    ¬ (runtimeHandle "GET" 10 [] jsParse
        (fun r => ({ r with statusCode := 404 },
                   .ret (some (.jobj [("ok", .jbool true)])))) Res.init).res.statusCode
      = 404 ∧
    ({ Res.init with statusCode := 404 } : Res).writableEnded = false := by
  refine ⟨rfl, by decide, rfl⟩

/-- Claim C4 (amended): when the handler has not ended the response, the
dev middleware finalizer serializes the (coalesced) return value as JSON,
sets the JSON content type, ends the response and preserves whatever
status code the handler set (the default being 200); the production
runtime finalizer does the same except that it always writes status 200,
overriding any status code the handler set. -/
theorem c4_finalize_amended (v : Option JsVal) (r : Res)
    (hr : r.writableEnded = false) :
    (devFinalize v r).statusCode = r.statusCode ∧
    (devFinalize v r).contentType = some "application/json" ∧
    (devFinalize v r).writableEnded = true ∧
    (devFinalize v r).body = stringifyJs (coalesce v) ∧
    (runtimeFinalize v r).statusCode = 200 ∧
    (runtimeFinalize v r).contentType = some "application/json" ∧
    (runtimeFinalize v r).writableEnded = true ∧
    (runtimeFinalize v r).body = stringifyJs (coalesce v) := by
  refine ⟨?_, ?_, ?_, ?_, ?_, ?_, ?_, ?_⟩ <;>
    simp [devFinalize, runtimeFinalize, hr]

/-- Claim C4 (witness): the amended statement at a fresh response and an
absent return value. -/
theorem c4_finalize_witness :
    (devFinalize none Res.init).statusCode = 200 ∧
    (runtimeFinalize none Res.init).statusCode = 200 ∧
    (devFinalize none Res.init).body = "\x7b\x7d" := by
  have h := c4_finalize_amended none Res.init rfl
  refine ⟨h.1.trans rfl, h.2.2.2.2.1, h.2.2.2.1.trans ?_⟩
  simp [coalesce, stringifyJs, stringifyFlds]

/-- Claim C5 (counterexample): a runtime handler that ends its response
with body "done" and then throws leads the runtime catch to attempt
further writes on the ended response (two attempts, both failing at the
Node layer) and the failure escapes the listener unhandled; only the
already-written body survives untouched. -/
theorem c5_after_end_cex :
    (runtimeHandle "GET" 10 [] jsParse
        (fun r => ({ r with writableEnded := true, body := "done", statusCode := 201 },
                   .thrw "boom")) Res.init).res.body = "done" ∧
    (runtimeHandle "GET" 10 [] jsParse
        (fun r => ({ r with writableEnded := true, body := "done", statusCode := 201 },
                   .thrw "boom")) Res.init).escaped = true ∧
    0 < (runtimeHandle "GET" 10 [] jsParse
        (fun r => ({ r with writableEnded := true, body := "done", statusCode := 201 },
                   .thrw "boom")) Res.init).res.attemptsAfterEnd := by
  refine ⟨rfl, rfl, by decide⟩

/-- Claim C5 (amended): if the handler throws after having ended the
response, the dev middleware discards the error and leaves the response
exactly as the handler ended it; the production runtime instead
unconditionally attempts to write an error response — the attempts fail
at the Node layer, leaving the sent body and status unchanged, but the
resulting error escapes the listener unhandled rather than being
discarded. -/
theorem c5_after_end_amended (limit : Nat) (jparse : String → Option String)
    (handler : Res → Res × HOut) (r r1 : Res) (msg : String)
    (hh : handler r = (r1, .thrw msg))
    (hend : r1.writableEnded = true) :
    (devHandle "GET" limit [] jparse handler r).res = r1 ∧
    (devHandle "GET" limit [] jparse handler r).escaped = false ∧
    (runtimeHandle "GET" limit [] jparse handler r).res.body = r1.body ∧
    (runtimeHandle "GET" limit [] jparse handler r).res.statusCode = r1.statusCode ∧
    (runtimeHandle "GET" limit [] jparse handler r).escaped = true ∧
    0 < (runtimeHandle "GET" limit [] jparse handler r).res.attemptsAfterEnd := by
  have hg : isMutating "GET" = false := by decide
  refine ⟨?_, ?_, ?_, ?_, ?_, ?_⟩ <;>
    simp [devHandle, runtimeHandle, runtimeCatch, runtimeOuterCatch,
          Res.writeHeadJson, Res.endBody, hg, hh, hend]

/-- Claim C5 (witness): the amended statement at a handler that ends with
body "done" and throws "boom". -/
theorem c5_after_end_witness :
    (devHandle "GET" 10 [] jsParse
        (fun r => ({ r with writableEnded := true, body := "done" }, .thrw "boom"))
        Res.init).res.body = "done" ∧
    (runtimeHandle "GET" 10 [] jsParse
        (fun r => ({ r with writableEnded := true, body := "done" }, .thrw "boom"))
        Res.init).escaped = true := by
  have h := c5_after_end_amended 10 jsParse
    (fun r => ({ r with writableEnded := true, body := "done" }, .thrw "boom"))
    Res.init { Res.init with writableEnded := true, body := "done" } "boom" rfl rfl
  exact ⟨by rw [h.1], h.2.2.2.2.1⟩

/-- Claim C6: for a mutating-method request whose chunks exceed the body
limit, both engines abort: the dev middleware answers 413 with a body
containing "Request body too large", the production runtime answers 413
with the same error body, neither invokes the handler, and the read is
aborted at the offending chunk — appending any further chunks to the
stream leaves both outcomes unchanged, so the remainder is never
buffered and the overflow is never a silent truncation. -/
theorem c6_body_limit (method : String) (limit : Nat) (chunks : List String)
    (jparse : String → Option String) (handler : Res → Res × HOut) (r : Res)
    (hm : isMutating method = true)
    (hr : r.writableEnded = false)
    (hlt : limit < sumBytes chunks) :
    (devHandle method limit chunks jparse handler r).res.statusCode = 413 ∧
    strIncludes (devHandle method limit chunks jparse handler r).res.body
      "Request body too large" = true ∧
    (devHandle method limit chunks jparse handler r).invoked = false ∧
    (runtimeHandle method limit chunks jparse handler r).res.statusCode = 413 ∧
    (runtimeHandle method limit chunks jparse handler r).res.body
      = errBody "Request body too large" ∧
    (runtimeHandle method limit chunks jparse handler r).invoked = false ∧
    (∀ rest, devHandle method limit (chunks ++ rest) jparse handler r
        = devHandle method limit chunks jparse handler r ∧
      runtimeHandle method limit (chunks ++ rest) jparse handler r
        = runtimeHandle method limit chunks jparse handler r) := by
  have hnil : chunks ≠ [] := by
    intro h
    rw [h] at hlt
    simp [sumBytes] at hlt
  have hsr : streamRead limit 0 chunks = none :=
    streamRead_exceeds limit chunks 0 hnil (by omega)
  have htl : strIncludes "Request body too large" "too large" = true := by decide
  have hib : strIncludes (errBody "Request body too large") "Request body too large"
      = true := by decide
  refine ⟨?_, ?_, ?_, ?_, ?_, ?_, ?_⟩
  · simp [devHandle, sendJsonDev, hm, hsr]
  · simp [devHandle, sendJsonDev, hm, hsr, hib]
  · simp [devHandle, hm, hsr]
  · simp [runtimeHandle, runtimeCatch, Res.writeHeadJson, Res.endBody, hm, hsr, hr, htl]
  · simp [runtimeHandle, runtimeCatch, Res.writeHeadJson, Res.endBody, hm, hsr, hr, htl]
  · simp [runtimeHandle, runtimeCatch, Res.writeHeadJson, Res.endBody, hm, hsr, hr, htl]
  · intro rest
    have happ : streamRead limit 0 (chunks ++ rest) = none :=
      streamRead_append limit rest chunks 0 hsr
    constructor
    · simp [devHandle, hm, hsr, happ]
    · simp [runtimeHandle, hm, hsr, happ]

/-- Claim C6 (witness): a POST with a 4-byte chunk against a 3-byte
limit, extended by a further chunk that is never read. -/
theorem c6_body_limit_witness :
    (devHandle "POST" 3 ["abcd"] jsParse (fun r => (r, .ret none)) Res.init).res.statusCode
      = 413 ∧
    (runtimeHandle "POST" 3 ["abcd"] jsParse (fun r => (r, .ret none)) Res.init).invoked
      = false ∧
    devHandle "POST" 3 (["abcd"] ++ ["xyz"]) jsParse (fun r => (r, .ret none)) Res.init
      = devHandle "POST" 3 ["abcd"] jsParse (fun r => (r, .ret none)) Res.init := by
  have h := c6_body_limit "POST" 3 ["abcd"] jsParse (fun r => (r, .ret none)) Res.init
    (by decide) (by decide) (by decide)
  exact ⟨h.1, h.2.2.2.2.2.1, (h.2.2.2.2.2.2 ["xyz"]).1⟩

/-- Claim C7: the production runtime resolves in two phases — if the
directly resolved file exists it is loaded with no route parameters;
only otherwise is the cached route table scanned, the first matching
entry winning with its captured parameters zipped to the pattern's
names; and if neither phase produces a file the outcome is the 404
(RouteNotFound), provided the candidate passes the containment guard. -/
theorem c7_resolution_phases (apiDir : String) (fsFiles rels : List String)
    (apiPath : String) :
    (fsFiles.contains (pathResolveAbs apiDir ("." ++ apiPath ++ ".js")) = true →
     strStartsWith (pathNormalizeAbs (pathResolveAbs apiDir ("." ++ apiPath ++ ".js")))
       apiDir = true →
     fsFiles.contains (pathNormalizeAbs (pathResolveAbs apiDir ("." ++ apiPath ++ ".js")))
       = true →
     runtimeResolve apiDir fsFiles rels apiPath
       = .load (pathNormalizeAbs (pathResolveAbs apiDir ("." ++ apiPath ++ ".js"))) []) ∧
    (∀ rt caps,
     fsFiles.contains (pathResolveAbs apiDir ("." ++ apiPath ++ ".js")) = false →
     firstMatch (getRouteCache apiDir rels) apiPath.data = some (rt, caps) →
     strStartsWith (pathNormalizeAbs rt.file) apiDir = true →
     fsFiles.contains (pathNormalizeAbs rt.file) = true →
     runtimeResolve apiDir fsFiles rels apiPath
       = .load (pathNormalizeAbs rt.file) ((patNames rt.pieces).zip caps)) ∧
    (fsFiles.contains (pathResolveAbs apiDir ("." ++ apiPath ++ ".js")) = false →
     firstMatch (getRouteCache apiDir rels) apiPath.data = none →
     strStartsWith (pathNormalizeAbs (pathResolveAbs apiDir ("." ++ apiPath ++ ".js")))
       apiDir = true →
     fsFiles.contains (pathNormalizeAbs (pathResolveAbs apiDir ("." ++ apiPath ++ ".js")))
       = false →
     runtimeResolve apiDir fsFiles rels apiPath = .notFound) := by
  refine ⟨?_, ?_, ?_⟩
  · intro h1 h2 h3
    simp at h1 h3
    simp [runtimeResolve, h1, h2, h3]
  · intro rt caps h1 h2 h3 h4
    simp at h1 h4
    simp [runtimeResolve, h1, h2, h3, h4]
  · intro h1 h2 h3 h4
    simp at h1 h4
    simp [runtimeResolve, h1, h2, h3, h4]

/-- Claim C7 (witness): the three phases at concrete inputs — a direct
hit on `h.js`, a pattern hit binding `id` to `7` when called on a path
shaped like the ones the runtime would need for dynamic routes, and a
404 when nothing matches. -/
theorem c7_resolution_phases_witness :
    runtimeResolve "/a" ["/a/h.js"] ["h.js"] "/h"
      = .load "/a/h.js" [] ∧
    runtimeResolve "/a" ["/a/users/[id].js"] ["users/[id].js"] "users/7"
      = .load "/a/users/[id].js" [("id", "7")] ∧
    runtimeResolve "/a" [] [] "/x" = .notFound := by
  refine ⟨?_, ?_, ?_⟩
  · exact ((c7_resolution_phases "/a" ["/a/h.js"] ["h.js"] "/h").1
      (by decide) (by decide) (by decide)).trans (by decide)
  · exact ((c7_resolution_phases "/a" ["/a/users/[id].js"] ["users/[id].js"] "users/7").2.1
      (mkRoute "/a" "users/[id].js") ["7"]
      (by decide) (by decide) (by decide) (by decide)).trans (by decide)
  · exact (c7_resolution_phases "/a" [] [] "/x").2.2
      (by decide) (by decide) (by decide) (by decide)

/-- Claim C8: the timeout callbacks of both engines test the response's
ended flag at fire time: on an already-ended response they are a no-op
(in particular on any response a finalizer has produced), and on a
not-yet-ended response they end it with status 408 and the JSON timeout
body. -/
theorem c8_timeout_fire (r : Res) :
    (r.writableEnded = true →
      devTimeoutFire r = r ∧ runtimeTimeoutFire r = r) ∧
    (r.writableEnded = false →
      (devTimeoutFire r).statusCode = 408 ∧
      (devTimeoutFire r).writableEnded = true ∧
      (devTimeoutFire r).body = errBody "Request timeout" ∧
      (devTimeoutFire r).contentType = some "application/json" ∧
      (runtimeTimeoutFire r).statusCode = 408 ∧
      (runtimeTimeoutFire r).writableEnded = true ∧
      (runtimeTimeoutFire r).body = errBody "Request timeout" ∧
      (runtimeTimeoutFire r).contentType = some "application/json") ∧
    (∀ v r2, devTimeoutFire (devFinalize v r2) = devFinalize v r2 ∧
      runtimeTimeoutFire (runtimeFinalize v r2) = runtimeFinalize v r2) := by
  refine ⟨?_, ?_, ?_⟩
  · intro h
    constructor <;> simp [devTimeoutFire, runtimeTimeoutFire, h]
  · intro h
    refine ⟨?_, ?_, ?_, ?_, ?_, ?_, ?_, ?_⟩ <;>
      simp [devTimeoutFire, runtimeTimeoutFire, sendJsonDev, h]
  · intro v r2
    by_cases h2 : r2.writableEnded = true <;>
      constructor <;>
      simp [devTimeoutFire, runtimeTimeoutFire, devFinalize, runtimeFinalize, h2]

/-- Claim C8 (witness): firing on an ended response is the identity,
firing on a fresh response yields 408, and firing after a finalize is
the identity. -/
theorem c8_timeout_fire_witness :
    devTimeoutFire { Res.init with writableEnded := true, body := "ok" }
      = { Res.init with writableEnded := true, body := "ok" } ∧
    (devTimeoutFire Res.init).statusCode = 408 ∧
    runtimeTimeoutFire (runtimeFinalize none Res.init)
      = runtimeFinalize none Res.init := by
  refine ⟨((c8_timeout_fire _).1 rfl).1, ((c8_timeout_fire Res.init).2.1 rfl).1,
    ((c8_timeout_fire Res.init).2.2 none Res.init).2⟩

/-- Claim C9: when the handler returns the JSON value null — as when it
returns nothing at all — and has not ended the response, both finalizers
write the empty-object body, never the JSON text "null". -/
theorem c9_null_coalesce (r : Res) (hr : r.writableEnded = false) :
    (devFinalize (some .jnull) r).body = "\x7b\x7d" ∧
    (devFinalize none r).body = "\x7b\x7d" ∧
    (runtimeFinalize (some .jnull) r).body = "\x7b\x7d" ∧
    (runtimeFinalize none r).body = "\x7b\x7d" ∧
    ¬ (devFinalize (some .jnull) r).body = "null" ∧
    ¬ (runtimeFinalize (some .jnull) r).body = "null" := by
  refine ⟨?_, ?_, ?_, ?_, ?_, ?_⟩ <;>
    simp [devFinalize, runtimeFinalize, coalesce, stringifyJs, stringifyFlds, hr]

/-- Claim C9 (witness): the empty-object body at a fresh response. -/
theorem c9_null_coalesce_witness :
    (devFinalize (some .jnull) Res.init).body = "\x7b\x7d" ∧
    (runtimeFinalize none Res.init).body = "\x7b\x7d" :=
  ⟨(c9_null_coalesce Res.init rfl).1, (c9_null_coalesce Res.init rfl).2.2.2.1⟩

/-- Claim C10: in the production runtime, the status of a caught handler
error is decided solely by whether its message contains "too large":
such errors are reported 413 and all others 500, with the message in the
JSON error body. -/
theorem c10_error_status (limit : Nat) (jparse : String → Option String)
    (handler : Res → Res × HOut) (r r1 : Res) (msg : String)
    (hh : handler r = (r1, .thrw msg))
    (hend : r1.writableEnded = false) :
    (runtimeHandle "GET" limit [] jparse handler r).res.statusCode
      = (if strIncludes msg "too large" = true then 413 else 500) ∧
    (runtimeHandle "GET" limit [] jparse handler r).res.body = errBody msg ∧
    (runtimeHandle "GET" limit [] jparse handler r).res.writableEnded = true := by
  have hg : isMutating "GET" = false := by decide
  refine ⟨?_, ?_, ?_⟩ <;>
    simp [runtimeHandle, runtimeCatch, runtimeOuterCatch,
          Res.writeHeadJson, Res.endBody, hg, hh, hend]

/-- Claim C10 (witness): a handler throwing a message that contains "too
large" is reported 413; one throwing "boom" is reported 500. -/
theorem c10_error_status_witness :
    (runtimeHandle "GET" 0 [] jsParse
        (fun r => (r, .thrw "File too large to process")) Res.init).res.statusCode
      = 413 ∧
    (runtimeHandle "GET" 0 [] jsParse
        (fun r => (r, .thrw "boom")) Res.init).res.statusCode = 500 := by
  constructor
  · have h := (c10_error_status 0 jsParse
      (fun r => (r, .thrw "File too large to process")) Res.init Res.init
      "File too large to process" rfl rfl).1
    rw [h]
    decide
  · have h := (c10_error_status 0 jsParse
      (fun r => (r, .thrw "boom")) Res.init Res.init "boom" rfl rfl).1
    rw [h]
    decide
